import Mathlib

/-!
Verification development for the agent coordination substrate
(protocol, message bus, task dependency graph, context store,
conflict resolution engine).

The Python modules under src/collaboration are shallowly embedded:

* Python `dict` becomes an insertion-ordered association list
  (`alGet` / `alSet`); updating an existing key keeps its position,
  a fresh key is appended — exactly the CPython `dict` semantics.
* Python `set` becomes a duplicate-free list (`setAdd` / `setDiscard`);
  only emptiness / membership of these sets is relied on by theorems,
  since CPython set iteration order is unspecified.
* `datetime` values become `Nat` instants; every operation that reads the
  wall clock takes an explicit `now : Nat` argument.
* Mutable heap objects whose identity is observable (the metadata, data
  and permission dictionaries of a `Context`, which are shared between a
  live context and its archived history entries) live in explicit heaps
  keyed by `Nat` references inside the manager state.
* Fallible operations return `Except String` / `Bool × state` mirroring
  the Python `raise` / boolean-return conventions.
-/

namespace Collab

/-- Insertion-ordered association-list lookup (Python `dict.get` / `d[k]`). -/
def alGet {κ α : Type} [DecidableEq κ] : List (κ × α) → κ → Option α
  | [], _ => none
  | (k, v) :: rest, key => if k = key then some v else alGet rest key

/-- Insertion-ordered association-list store (Python `d[k] = v`):
an existing key keeps its position, a new key is appended. -/
def alSet {κ α : Type} [DecidableEq κ] : List (κ × α) → κ → α → List (κ × α)
  | [], key, v => [(key, v)]
  | (k, w) :: rest, key, v =>
      if k = key then (key, v) :: rest else (k, w) :: alSet rest key v

/-- Python `k in d`. -/
def alMem {κ α : Type} [DecidableEq κ] (m : List (κ × α)) (k : κ) : Bool :=
  (alGet m k).isSome

/-- Python `set.add`: no-op when already present, else appended. -/
def setAdd (s : List String) (x : String) : List String :=
  if x ∈ s then s else s ++ [x]

/-- Python `set.discard`. -/
def setDiscard (s : List String) (x : String) : List String :=
  s.filter (fun y => y ≠ x)

/-- Structured Python values carried in `data` payloads. -/
inductive PyVal : Type where
  | pynone : PyVal
  | pyint (n : Int) : PyVal
  | pystr (s : String) : PyVal
  | pybool (b : Bool) : PyVal
deriving DecidableEq, Repr

/-- Python `dict.update` (shallow merge: top-level keys of the patch
override, values are replaced wholesale). -/
def dictUpdate (d patch : List (String × PyVal)) : List (String × PyVal) :=
  patch.foldl (fun acc kv => alSet acc kv.1 kv.2) d

/-! ## Task dependency graph — src/collaboration/dependency_tracker.py -/

inductive TaskStatus : Type where
  | pending
  | in_progress
  | completed
  | failed
  | blocked
deriving DecidableEq, Repr

/-- `Task` dataclass (times are `Nat` instants; `metadata` omitted,
no claim touches it). -/
structure Task : Type where
  id : String
  name : String
  assigned_to : String
  status : TaskStatus := .pending
  priority : Int := 2
  created_at : Nat := 0
  completed_at : Option Nat := none
deriving DecidableEq, Repr

/-- `DependencyTracker.__init__`. -/
structure DependencyTracker : Type where
  tasks : List (String × Task) := []
  dependencies : List (String × List String) := []
  dependents : List (String × List String) := []
deriving DecidableEq, Repr

/-- `DependencyTracker.add_task` (unconditionally stores the task under
its id; adjacency entries are created only when missing). -/
def addTask (tr : DependencyTracker) (t : Task) : DependencyTracker :=
  { tr with
    tasks := alSet tr.tasks t.id t
    dependencies :=
      if alMem tr.dependencies t.id then tr.dependencies
      else alSet tr.dependencies t.id []
    dependents :=
      if alMem tr.dependents t.id then tr.dependents
      else alSet tr.dependents t.id [] }

/-- The closure `can_reach` of `DependencyTracker._would_create_cycle`:
depth-first search over the `dependents` adjacency with a shared visited
set, rendered iteratively with an explicit preorder stack (children are
pushed in front of the remaining siblings, so the traversal order, the
shared visited set and the result coincide with the recursive Python
search). `fuel` bounds the number of steps; each step pops one stack
entry and a node's dependents are pushed at most once, so any fuel
dominating the total adjacency size is enough. -/
def canReach (deps : List (String × List String)) :
    Nat → List String → List String → String → Bool
  | 0, _, _, _ => false
  | _ + 1, _, [], _ => false
  | fuel + 1, visited, current :: stack, target =>
      if current = target then true
      else if current ∈ visited then canReach deps fuel visited stack target
      else canReach deps fuel (current :: visited)
        (((alGet deps current).getD []) ++ stack) target

/-- Fuel that dominates the total size of the adjacency map, hence the
number of DFS steps. -/
def depFuel (deps : List (String × List String)) : Nat :=
  deps.length + (deps.map (fun p => p.2.length)).foldl (· + ·) 0 + 2

/-- `DependencyTracker._would_create_cycle`: calls
`can_reach(to_task, from_task)` over the `dependents` adjacency. -/
def wouldCreateCycle (tr : DependencyTracker)
    (from_task to_task : String) : Bool :=
  canReach tr.dependents (depFuel tr.dependents) [] [to_task] from_task

/-- `DependencyTracker.add_dependency`. -/
def addDependency (tr : DependencyTracker)
    (dependent_task_id blocking_task_id : String) :
    Except String DependencyTracker :=
  if ¬ alMem tr.tasks dependent_task_id then
    .error ("Task " ++ dependent_task_id ++ " not found")
  else if ¬ alMem tr.tasks blocking_task_id then
    .error ("Task " ++ blocking_task_id ++ " not found")
  else if wouldCreateCycle tr dependent_task_id blocking_task_id then
    .error ("Adding dependency would create cycle: " ++
      dependent_task_id ++ " -> " ++ blocking_task_id)
  else
    .ok { tr with
      dependencies := alSet tr.dependencies dependent_task_id
        (setAdd ((alGet tr.dependencies dependent_task_id).getD [])
          blocking_task_id)
      dependents := alSet tr.dependents blocking_task_id
        (setAdd ((alGet tr.dependents blocking_task_id).getD [])
          dependent_task_id) }

/-- `DependencyTracker.get_blockers`: blocking tasks not yet COMPLETED;
blocker ids absent from the task registry are skipped. -/
def getBlockers (tr : DependencyTracker) (task_id : String) : List Task :=
  ((alGet tr.dependencies task_id).getD []).filterMap fun bid =>
    match alGet tr.tasks bid with
    | some t => if t.status ≠ .completed then some t else none
    | none => none

/-- `DependencyTracker.is_ready`. -/
def isReady (tr : DependencyTracker) (task_id : String) : Bool :=
  (getBlockers tr task_id).length = 0

/-- `DependencyTracker.mark_completed`. -/
def markCompleted (tr : DependencyTracker) (task_id : String) (now : Nat) :
    DependencyTracker :=
  match alGet tr.tasks task_id with
  | none => tr
  | some t =>
      let t2 : Task := { t with status := .completed, completed_at := some now }
      { tr with tasks := alSet tr.tasks task_id t2 }

/-- `DependencyTracker.update_task_status`. -/
def updateTaskStatus (tr : DependencyTracker) (task_id : String)
    (status : TaskStatus) : DependencyTracker :=
  match alGet tr.tasks task_id with
  | none => tr
  | some t =>
      let t2 : Task := { t with status := status }
      { tr with tasks := alSet tr.tasks task_id t2 }

/-- Stable comparison used by `ready_tasks.sort(key=lambda t: t.priority)`. -/
def taskLE (a b : Task) : Prop := a.priority ≤ b.priority

instance : DecidableRel taskLE :=
  fun a b => inferInstanceAs (Decidable (a.priority ≤ b.priority))

instance : IsTotal Task taskLE := ⟨fun a b => Int.le_total a.priority b.priority⟩

instance : IsTrans Task taskLE := ⟨fun _ _ _ h h2 => le_trans (α := Int) h h2⟩

/-- `DependencyTracker.get_ready_tasks`: PENDING tasks that are ready, in
task-map insertion order, then stably sorted ascending by priority
(Python `list.sort` is stable; insertion sort on `taskLE` is stable). -/
def getReadyTasks (tr : DependencyTracker) : List Task :=
  let ready := (tr.tasks.filter fun p =>
    p.2.status = .pending ∧ isReady tr p.1).map (fun p => p.2)
  ready.insertionSort taskLE

/-! ## Protocol — src/collaboration/protocol.py -/

inductive MessageType : Type where
  | task_request | task_update | task_complete | task_failed
  | dependency_check | context_share | state_sync
  | request_feedback | provide_feedback | conflict_notification
  | decision_needed | ack | nack
deriving DecidableEq, Repr

inductive MessagePriority : Type where
  | low | normal | high | critical
deriving DecidableEq, Repr

inductive MessageStatus : Type where
  | pending | delivered | processed | failed | expired
deriving DecidableEq, Repr

/-- The `to_agent` field: a single agent name or a list of names. -/
inductive ToAgent : Type where
  | one (name : String)
  | many (names : List String)
deriving DecidableEq, Repr

/-- `Message` dataclass. Fields that Python allows to be `None` are
`Option`s; `timestamp` is a `Nat` instant filled in by construction. -/
structure Message : Type where
  id : Option String
  from_agent : Option String
  to_agent : Option ToAgent
  msg_type : Option MessageType
  subject : Option String
  data : Option (List (String × PyVal))
  priority : MessagePriority := .normal
  timestamp : Option Nat := none
  status : MessageStatus := .pending
  reply_to : Option String := none
  signature : Option String := none
  ttl : Option Nat := none
deriving DecidableEq, Repr

/-- `Message.__post_init__`: assigns a fresh id when absent (uuid4 is
modelled by a caller-supplied fresh name) and stamps the timestamp. -/
def postInit (m : Message) (freshId : String) (now : Nat) : Message :=
  let m := if m.id = none then { m with id := some freshId } else m
  if m.timestamp = none then { m with timestamp := some now } else m

/-- `Message.is_expired`: elapsed wall-clock strictly greater than `ttl`.
A constructed message always carries a timestamp; a missing one is
treated as not expired. -/
def isExpiredMsg (m : Message) (now : Nat) : Bool :=
  match m.ttl with
  | none => false
  | some t =>
      match m.timestamp with
      | some ts => now - ts > t
      | none => false

/-- `ProtocolValidator.validate_message`. The required-field loop
iterates the set literal in its written order (CPython set iteration
order is unspecified; only which of several simultaneously missing
fields is named first depends on it). -/
def validateMessage (m : Message) (now : Nat) : Bool × Option String :=
  if m.id = none then (false, some ("Missing required field: id"))
  else if m.from_agent = none then
    (false, some ("Missing required field: from_agent"))
  else if m.to_agent = none then
    (false, some ("Missing required field: to_agent"))
  else if m.msg_type = none then
    (false, some ("Missing required field: msg_type"))
  else if m.subject = none then
    (false, some ("Missing required field: subject"))
  else if m.data = none then
    (false, some ("Missing required field: data"))
  else
    match m.to_agent with
    | some (.many []) => (false, some ("to_agent list cannot be empty"))
    | _ =>
        if isExpiredMsg m now then (false, some ("Message has expired"))
        else (true, none)

/-! ## Message bus — src/collaboration/message_queue.py

The pluggable backend's `publish` is modelled as appending the
`(channel, message)` pair to a publish log and returning the message id,
which is what both concrete backends do after serialisation. -/

structure MessageBus : Type where
  published : List (String × Message) := []
  nextUuid : Nat := 0
deriving DecidableEq, Repr

/-- Channel derivation inside `MessageBus.send_message`: for a list
recipient the channel uses `to_agent[0]` (an empty list raises
IndexError, surfaced as an error here); a plain name is interpolated
directly, and a `None` recipient interpolates as the text None. -/
def channelOf (m : Message) : Except String String :=
  match m.to_agent with
  | some (.many []) => .error ("IndexError: list index out of range")
  | some (.many (r :: _)) => .ok ("agents:" ++ r)
  | some (.one r) => .ok ("agents:" ++ r)
  | none => .ok ("agents:None")

/-- `MessageBus.send_message`: publishes the message once, to the single
derived channel, and returns the backend's delivery id. -/
def sendMessage (bus : MessageBus) (m : Message) :
    Except String (Option String × MessageBus) :=
  match channelOf m with
  | .error e => .error e
  | .ok ch => .ok (m.id, { bus with published := bus.published ++ [(ch, m)] })

/-- `MessageBus.broadcast_message`: only a list recipient fans out; each
copy is a fresh message (new id, same body) sent individually. A
non-list recipient produces no publishes and an empty id list. -/
def broadcastMessage (bus : MessageBus) (m : Message) (now : Nat) :
    List (Option String) × MessageBus :=
  match m.to_agent with
  | some (.many rs) =>
      rs.foldl
        (fun acc r =>
          let copy : Message := postInit
            { id := none, from_agent := m.from_agent,
              to_agent := some (.one r), msg_type := m.msg_type,
              subject := m.subject, data := m.data,
              priority := m.priority }
            ("uuid-" ++ toString acc.2.nextUuid) now
          let bus2 := { acc.2 with nextUuid := acc.2.nextUuid + 1 }
          match sendMessage bus2 copy with
          | .ok (mid, bus3) => (acc.1 ++ [mid], bus3)
          | .error _ => (acc.1, bus2))
        ([], bus)
  | _ => ([], bus)

/-! ## Context store — src/collaboration/context_manager.py

A Python `Context` object holds references to three mutable
dictionaries/objects: its `ContextMetadata`, its `data` dict and its
`access_permissions` dict. Archived history entries share the metadata
object of the live context (`Context(metadata=context.metadata, ...)`)
while `data` and `access_permissions` are shallow-copied, so object
identity is observable. The three kinds of objects therefore live in
explicit heaps keyed by `Nat` references allocated from `nextRef`. -/

inductive ContextType : Type where
  | project | sprint | task | decision | knowledge | workflow
deriving DecidableEq, Repr

inductive AccessLevel : Type where
  | publicLevel | team | role | privateLevel
deriving DecidableEq, Repr

/-- `ContextMetadata` dataclass. -/
structure ContextMetadata : Type where
  context_id : String
  context_type : ContextType
  owner : String
  created_at : Nat := 0
  updated_at : Nat := 0
  access_level : AccessLevel := .team
  tags : List String := []
  version : Nat := 1
  ttl : Option Nat := none
  related_contexts : List String := []
deriving DecidableEq, Repr

/-- `ContextMetadata.is_expired`. -/
def isExpiredMeta (md : ContextMetadata) (now : Nat) : Bool :=
  match md.ttl with
  | none => false
  | some t => now - md.created_at > t

/-- A `Context` object: references into the manager's heaps. -/
structure CtxObj : Type where
  metaRef : Nat
  dataRef : Nat
  permsRef : Nat
deriving DecidableEq, Repr

/-- `ContextManager.__init__` plus the three object heaps. -/
structure ContextManager : Type where
  metas : List (Nat × ContextMetadata) := []
  datas : List (Nat × List (String × PyVal)) := []
  perms : List (Nat × List (String × Bool)) := []
  nextRef : Nat := 0
  contexts : List (String × CtxObj) := []
  context_history : List (String × List CtxObj) := []
  subscriptions : List (String × List String) := []
deriving DecidableEq, Repr

/-- `Context.has_access`: an explicit per-agent entry decides first;
else PUBLIC grants everyone, PRIVATE grants only the owner, TEAM and
ROLE grant nobody. Dangling references cannot occur in reachable
states and default to denial. -/
def hasAccess (mgr : ContextManager) (c : CtxObj) (agent_name : String) :
    Bool :=
  match alGet ((alGet mgr.perms c.permsRef).getD []) agent_name with
  | some b => b
  | none =>
      match alGet mgr.metas c.metaRef with
      | none => false
      | some md =>
          if md.access_level = .publicLevel then true
          else if md.access_level = .privateLevel then
            agent_name = md.owner
          else false

/-- `Context.grant_access` on the live permission dict. -/
def grantAccess (mgr : ContextManager) (c : CtxObj) (agent_name : String) :
    ContextManager :=
  let pm := alSet ((alGet mgr.perms c.permsRef).getD []) agent_name true
  { mgr with perms := alSet mgr.perms c.permsRef pm }

/-- `Context.revoke_access` on the live permission dict. -/
def revokeAccess (mgr : ContextManager) (c : CtxObj) (agent_name : String) :
    ContextManager :=
  let pm := alSet ((alGet mgr.perms c.permsRef).getD []) agent_name false
  { mgr with perms := alSet mgr.perms c.permsRef pm }

/-- `ContextManager.create_context`: rejects duplicate ids, allocates
the metadata/data/permission objects, stores the context and seeds its
history with the live context object itself. -/
def createContext (mgr : ContextManager) (context_id : String)
    (context_type : ContextType) (owner : String)
    (data : List (String × PyVal)) (access_level : AccessLevel)
    (tags : List String) (ttl : Option Nat) (now : Nat) :
    Except String (CtxObj × ContextManager) :=
  if alMem mgr.contexts context_id then
    .error ("Context " ++ context_id ++ " already exists")
  else
    let md : ContextMetadata :=
      { context_id := context_id, context_type := context_type,
        owner := owner, created_at := now, updated_at := now,
        access_level := access_level, tags := tags, ttl := ttl }
    let c : CtxObj :=
      { metaRef := mgr.nextRef, dataRef := mgr.nextRef + 1,
        permsRef := mgr.nextRef + 2 }
    .ok (c, { mgr with
      metas := mgr.metas ++ [(mgr.nextRef, md)]
      datas := mgr.datas ++ [(mgr.nextRef + 1, data)]
      perms := mgr.perms ++ [(mgr.nextRef + 2, [])]
      nextRef := mgr.nextRef + 3
      contexts := alSet mgr.contexts context_id c
      context_history := alSet mgr.context_history context_id [c] })

/-- `ContextManager.delete_context`. -/
def deleteContext (mgr : ContextManager) (context_id : String) :
    Bool × ContextManager :=
  if alMem mgr.contexts context_id then
    (true, { mgr with
      contexts := mgr.contexts.filter (fun p => p.1 ≠ context_id) })
  else (false, mgr)

/-- `ContextManager.get_context`: absent for an unknown id; an expired
context is deleted as a side effect and reported absent; otherwise the
access check gates the result. -/
def getContext (mgr : ContextManager) (context_id agent_name : String)
    (now : Nat) : Option CtxObj × ContextManager :=
  match alGet mgr.contexts context_id with
  | none => (none, mgr)
  | some c =>
      let expired :=
        match alGet mgr.metas c.metaRef with
        | some md => isExpiredMeta md now
        | none => false
      if expired then (none, (deleteContext mgr context_id).2)
      else if ¬ hasAccess mgr c agent_name then (none, mgr)
      else (some c, mgr)

/-- `ContextManager.update_context`: owner-only; archives a copy whose
`data` and `access_permissions` are fresh shallow copies but whose
metadata object is the live one, then merges the patch in place, stamps
`updated_at` and bumps `version`. -/
def updateContext (mgr : ContextManager) (context_id agent_name : String)
    (new_data : List (String × PyVal)) (now : Nat) :
    Bool × ContextManager :=
  match alGet mgr.contexts context_id with
  | none => (false, mgr)
  | some c =>
      match alGet mgr.metas c.metaRef with
      | none => (false, mgr)
      | some md =>
          if agent_name ≠ md.owner then (false, mgr)
          else
            let hist := (alGet mgr.context_history context_id).getD []
            let d := (alGet mgr.datas c.dataRef).getD []
            let pm := (alGet mgr.perms c.permsRef).getD []
            let oldCtx : CtxObj :=
              { metaRef := c.metaRef, dataRef := mgr.nextRef,
                permsRef := mgr.nextRef + 1 }
            let md2 : ContextMetadata :=
              { md with updated_at := now, version := md.version + 1 }
            (true, { mgr with
              datas := alSet (mgr.datas ++ [(mgr.nextRef, d)])
                c.dataRef (dictUpdate d new_data)
              perms := mgr.perms ++ [(mgr.nextRef + 1, pm)]
              metas := alSet mgr.metas c.metaRef md2
              nextRef := mgr.nextRef + 2
              context_history := alSet mgr.context_history context_id
                (hist ++ [oldCtx]) })

/-- `ContextManager._subscribe_agent`. -/
def subscribeAgent (mgr : ContextManager) (context_id agent_name : String) :
    ContextManager :=
  let subs := setAdd ((alGet mgr.subscriptions context_id).getD []) agent_name
  { mgr with subscriptions := alSet mgr.subscriptions context_id subs }

/-- `ContextManager.share_context`: grants access to each listed agent
and subscribes them to updates. -/
def shareContext (mgr : ContextManager) (context_id : String)
    (agent_names : List String) : Bool × ContextManager :=
  match alGet mgr.contexts context_id with
  | none => (false, mgr)
  | some c =>
      (true, agent_names.foldl
        (fun acc a => subscribeAgent (grantAccess acc c a) context_id a)
        mgr)

/-! ## Conflict resolution engine — src/collaboration/conflict_resolver.py -/

inductive ConflictType : Type where
  | resource_conflict | decision_conflict | priority_conflict
  | schedule_conflict | design_conflict | process_conflict
deriving DecidableEq, Repr

inductive ResolutionStrategy : Type where
  | majority_vote | priority_based | escalate | consensus
  | time_based | random | weighted_vote
deriving DecidableEq, Repr

inductive ConflictStatus : Type where
  | openStatus | resolved | escalated | abandoned
deriving DecidableEq, Repr

/-- `ConflictOption` dataclass (`votes` is an ordered list; `vote`
appends only when the agent is not already present). -/
structure ConflictOption : Type where
  option_id : String
  proposed_by : String
  description : String := ""
  rationale : String := ""
  data : List (String × PyVal) := []
  pros : List String := []
  cons : List String := []
  votes : List String := []
deriving DecidableEq, Repr

/-- `Conflict` dataclass; `options` is an insertion-ordered map. -/
structure Conflict : Type where
  conflict_id : String
  conflict_type : ConflictType
  agents_involved : List String
  topic : String
  options : List (String × ConflictOption) := []
  status : ConflictStatus := .openStatus
  created_at : Nat := 0
  resolved_at : Option Nat := none
  resolution : Option String := none
  escalation_reason : Option String := none
deriving DecidableEq, Repr

/-- `Conflict.vote`: unknown options are rejected; a repeated vote by
the same agent for the same option is a no-op. -/
def voteOnConflict (c : Conflict) (agent_name option_id : String) :
    Bool × Conflict :=
  match alGet c.options option_id with
  | none => (false, c)
  | some opt =>
      if agent_name ∈ opt.votes then (true, c)
      else
        let opt2 : ConflictOption :=
          { opt with votes := opt.votes ++ [agent_name] }
        (true, { c with options := alSet c.options option_id opt2 })

/-- `Conflict.get_winning_option`: `max` over the option map by vote
count; CPython `max` keeps the first item among equals, so the first
inserted option wins ties. -/
def getWinningOption (c : Conflict) : Option String :=
  match c.options with
  | [] => none
  | x :: xs =>
      some (xs.foldl
        (fun best p =>
          if p.2.votes.length > best.2.votes.length then p else best)
        x).1

/-- `_resolve_by_majority`. -/
def resolveByMajority (c : Conflict) : Option String :=
  if c.options = [] then none else getWinningOption c

/-- `_resolve_by_priority`: first option key in insertion order. -/
def resolveByPriority (c : Conflict) : Option String :=
  (c.options.head?).map (fun p => p.1)

/-- `_resolve_by_consensus`: the first option (in insertion order)
whose vote count equals the number of agents involved. -/
def resolveByConsensus (c : Conflict) : Option String :=
  (c.options.find?
    (fun p => p.2.votes.length = c.agents_involved.length)).map
    (fun p => p.2.option_id)

/-- `_resolve_by_time`: first option key. -/
def resolveByTime (c : Conflict) : Option String :=
  (c.options.head?).map (fun p => p.1)

/-- `_resolve_by_random`: `random.choice` over the option keys,
modelled by a caller-supplied index reduced modulo the option count. -/
def resolveByRandom (c : Conflict) (rnd : Nat) : Option String :=
  match c.options with
  | [] => none
  | opts => (opts.get? (rnd % opts.length)).map (fun p => p.1)

/-- A `resolution_history` record (the fields a claim can observe). -/
structure ResolutionRecord : Type where
  conflict_id : String
  topic : String
  strategy : ResolutionStrategy
  resolution : String
  agents : List String
  resolved_at : Nat
deriving DecidableEq, Repr

/-- `ConflictResolver.__init__`; the injected escalation handler is
modelled by whether one is set, and handler invocations are reported
as explicit events by the operations. -/
structure ConflictResolver : Type where
  conflicts : List (String × Conflict) := []
  resolution_history : List ResolutionRecord := []
  escalation_handler_set : Bool := false
deriving DecidableEq, Repr

/-- Python truthiness of the strategy result inside `resolve`
(`if result:`): `None` and the empty string are falsy. -/
def truthyOpt (o : Option String) : Bool :=
  match o with
  | none => false
  | some s => s ≠ ""

/-- `ConflictResolver.resolve`: dispatches on the strategy (ESCALATE
has no branch and falls through to `result = None`), and commits only
a truthy result. Returns the committed option id and the new state. -/
def resolveConflict (res : ConflictResolver) (conflict_id : String)
    (strategy : ResolutionStrategy) (rnd : Nat) (now : Nat) :
    Option String × ConflictResolver :=
  match alGet res.conflicts conflict_id with
  | none => (none, res)
  | some c =>
      let result : Option String :=
        match strategy with
        | .majority_vote => resolveByMajority c
        | .priority_based => resolveByPriority c
        | .consensus => resolveByConsensus c
        | .time_based => resolveByTime c
        | .weighted_vote => resolveByMajority c
        | .random => resolveByRandom c rnd
        | .escalate => none
      if truthyOpt result then
        let c2 : Conflict :=
          { c with
            resolution := result
            status := .resolved
            resolved_at := some now }
        let rec_ : ResolutionRecord :=
          { conflict_id := c.conflict_id
            topic := c.topic
            strategy := strategy
            resolution := result.getD ""
            agents := c.agents_involved
            resolved_at := now }
        (result, { res with
          conflicts := alSet res.conflicts conflict_id c2
          resolution_history := res.resolution_history ++ [rec_] })
      else (none, res)

/-- `ConflictResolver.escalate_conflict`: marks the conflict ESCALATED,
records the reason and reports whether the injected handler was
invoked (it is called exactly when one is set). -/
def escalateConflict (res : ConflictResolver) (conflict_id reason : String) :
    Bool × ConflictResolver × Bool :=
  match alGet res.conflicts conflict_id with
  | none => (false, res, false)
  | some c =>
      let c2 : Conflict :=
        { c with status := .escalated, escalation_reason := some reason }
      (true,
       { res with conflicts := alSet res.conflicts conflict_id c2 },
       res.escalation_handler_set)

/-! ## Claim-side specification predicates -/

/-- Spec-side readiness: every blocking id of the task is registered
and its task has status COMPLETED. -/
def allBlockersCompleted (tr : DependencyTracker) (task_id : String) :
    Prop :=
  ∀ b ∈ (alGet tr.dependencies task_id).getD [],
    ∃ t, alGet tr.tasks b = some t ∧ t.status = .completed

/-- Spec-side description of CPython `max` over the option map: the
element wins iff everything before it has strictly fewer votes and
everything after it has at most as many. -/
def IsFirstMax (opts : List (String × ConflictOption))
    (x : String × ConflictOption) : Prop :=
  ∃ pre post, opts = pre ++ x :: post ∧
    (∀ q ∈ pre, q.2.votes.length < x.2.votes.length) ∧
    (∀ q ∈ post, q.2.votes.length ≤ x.2.votes.length)

/-- C7's amended property, as a predicate over a resolver state: under
MAJORITY_VOTE `resolve` returns the key of the first option of maximal
vote count; under CONSENSUS it returns none exactly when no option's
vote count equals the number of involved agents, and otherwise the id
of the first such option in insertion order. -/
def voteStrategiesSpec (res : ConflictResolver) (cid : String)
    (c : Conflict) (rnd now : Nat) : Prop :=
  (∃ x, IsFirstMax c.options x ∧
    (resolveConflict res cid .majority_vote rnd now).1 = some x.1) ∧
  ((resolveConflict res cid .consensus rnd now).1 = none ↔
    ∀ p ∈ c.options, p.2.votes.length ≠ c.agents_involved.length) ∧
  (∀ k, (resolveConflict res cid .consensus rnd now).1 = some k →
    ∃ pre p post, c.options = pre ++ p :: post ∧
      p.2.votes.length = c.agents_involved.length ∧
      (∀ q ∈ pre, q.2.votes.length ≠ c.agents_involved.length) ∧
      k = p.2.option_id)

/-- C6's property, as a predicate over a tracker state: membership in
`get_ready_tasks` is exactly PENDING-with-all-blockers-COMPLETED, the
result is sorted ascending by priority, and within each priority class
the order is the task-map insertion order (Python's sort is stable). -/
def readyTasksSpec (tr : DependencyTracker) : Prop :=
  (∀ t, t ∈ getReadyTasks tr ↔
    ∃ k, (k, t) ∈ tr.tasks ∧ t.status = .pending ∧
      allBlockersCompleted tr k) ∧
  List.Sorted taskLE (getReadyTasks tr) ∧
  (∀ p : Int, (getReadyTasks tr).filter (fun t => t.priority == p) =
    ((tr.tasks.filter fun q =>
      q.2.status = .pending ∧ isReady tr q.1).map (fun q => q.2)).filter
      (fun t => t.priority == p))

/-- C8's amended property over a message and an instant: a message
passing validation has all required fields non-null; a null subject
(with the fields checked before it present) fails naming the missing
field; an empty recipient list fails; an expired message fails as
expired, where expiry is elapsed time strictly beyond `ttl`; and — the
amendment — any string recipient passes the recipient check, including
the empty string. Validation returns a verdict without touching the
message. -/
def validateSpec (m : Message) (now : Nat) : Prop :=
  ((validateMessage m now).1 = true →
    m.id ≠ none ∧ m.from_agent ≠ none ∧ m.to_agent ≠ none ∧
    m.msg_type ≠ none ∧ m.subject ≠ none ∧ m.data ≠ none) ∧
  (m.id = none → m.from_agent ≠ none → m.to_agent ≠ none →
    m.msg_type ≠ none → m.subject ≠ none → m.data ≠ none →
    validateMessage m now = (false, some ("Missing required field: id"))) ∧
  (m.id ≠ none → m.from_agent = none → m.to_agent ≠ none →
    m.msg_type ≠ none → m.subject ≠ none → m.data ≠ none →
    validateMessage m now =
      (false, some ("Missing required field: from_agent"))) ∧
  (m.id ≠ none → m.from_agent ≠ none → m.to_agent = none →
    m.msg_type ≠ none → m.subject ≠ none → m.data ≠ none →
    validateMessage m now =
      (false, some ("Missing required field: to_agent"))) ∧
  (m.id ≠ none → m.from_agent ≠ none → m.to_agent ≠ none →
    m.msg_type = none → m.subject ≠ none → m.data ≠ none →
    validateMessage m now =
      (false, some ("Missing required field: msg_type"))) ∧
  (m.id ≠ none → m.from_agent ≠ none → m.to_agent ≠ none →
    m.msg_type ≠ none → m.subject = none → m.data ≠ none →
    validateMessage m now =
      (false, some ("Missing required field: subject"))) ∧
  (m.id ≠ none → m.from_agent ≠ none → m.to_agent ≠ none →
    m.msg_type ≠ none → m.subject ≠ none → m.data = none →
    validateMessage m now =
      (false, some ("Missing required field: data"))) ∧
  (m.id ≠ none → m.from_agent ≠ none → m.msg_type ≠ none →
    m.subject ≠ none → m.data ≠ none → m.to_agent = some (.many []) →
    validateMessage m now = (false, some ("to_agent list cannot be empty"))) ∧
  (∀ s, m.id ≠ none → m.from_agent ≠ none → m.msg_type ≠ none →
    m.subject ≠ none → m.data ≠ none → m.to_agent = some (.one s) →
    isExpiredMsg m now = false → validateMessage m now = (true, none)) ∧
  (∀ s, m.id ≠ none → m.from_agent ≠ none → m.msg_type ≠ none →
    m.subject ≠ none → m.data ≠ none → m.to_agent = some (.one s) →
    isExpiredMsg m now = true →
    validateMessage m now = (false, some ("Message has expired"))) ∧
  (∀ ts t, m.timestamp = some ts → m.ttl = some t →
    (isExpiredMsg m now = true ↔ now - ts > t))

/-- C9's property: a message whose recipient field is a list is sent
once, to the channel of the first recipient only, and `broadcast` of a
non-list recipient publishes nothing and returns an empty id list. -/
def sendBroadcastSpec (bus : MessageBus) (m : Message) (now : Nat) : Prop :=
  (∀ r rs, m.to_agent = some (.many (r :: rs)) →
    sendMessage bus m = .ok (m.id,
      { bus with published := bus.published ++ [("agents:" ++ r, m)] })) ∧
  (∀ s, m.to_agent = some (.one s) →
    broadcastMessage bus m now = ([], bus)) ∧
  (m.to_agent = none → broadcastMessage bus m now = ([], bus))

/-- The metadata version observed through the heap by the LAST
archived history entry of a context (what Python reads as
`history[-1].metadata.version`). -/
def archivedVersion (mgr : ContextManager) (cid : String) : Option Nat :=
  match ((alGet mgr.context_history cid).getD []).getLast? with
  | some e => (alGet mgr.metas e.metaRef).map (fun md => md.version)
  | none => none

/-- C3's amended property: a successful owner update appends exactly
one history entry whose `data`/`access_permissions` are fresh shallow
copies of the pre-update dictionaries but whose metadata object is the
live one, shallow-merges the patch into the live data, stamps
`updated_at` and bumps `version` by one — so the archived entry's
metadata.version, read through the shared object, equals the
POST-update version. -/
def updateAmendedSpec (mgr : ContextManager) (cid agent : String)
    (patch : List (String × PyVal)) (now : Nat) (c : CtxObj)
    (md : ContextMetadata) (d : List (String × PyVal)) : Prop :=
  let mgr2 := (updateContext mgr cid agent patch now).2
  (updateContext mgr cid agent patch now).1 = true ∧
  (alGet mgr2.context_history cid).getD [] =
    (alGet mgr.context_history cid).getD [] ++
      [{ metaRef := c.metaRef, dataRef := mgr.nextRef,
         permsRef := mgr.nextRef + 1 }] ∧
  alGet mgr2.datas mgr.nextRef = some d ∧
  alGet mgr2.datas c.dataRef = some (dictUpdate d patch) ∧
  alGet mgr2.metas c.metaRef =
    some ({ md with updated_at := now, version := md.version + 1 }) ∧
  (alGet mgr2.metas c.metaRef).map (fun x => x.version) =
    some (md.version + 1)

/-- C4's property: the access-precedence rule of `has_access` (explicit
per-agent entry first, else PUBLIC grants everyone, PRIVATE only the
owner, TEAM/ROLE nobody), denial surfacing as an absent `get_context`
result, and the concrete TEAM/PRIVATE retrievability consequences,
including retrievability after an explicit `share` grant. -/
def accessControlSpec (mgr : ContextManager) (cid : String) (c : CtxObj)
    (md : ContextMetadata) (a : String) (now : Nat) : Prop :=
  let pm := (alGet mgr.perms c.permsRef).getD []
  (hasAccess mgr c a = true ↔
    (alGet pm a = some true ∨ (alGet pm a = none ∧
      (md.access_level = .publicLevel ∨
        (md.access_level = .privateLevel ∧ a = md.owner))))) ∧
  (hasAccess mgr c a = false → (getContext mgr cid a now).1 = none) ∧
  (md.access_level = .team → alGet pm a = none →
    (getContext mgr cid a now).1 = none) ∧
  (md.access_level = .team → isExpiredMeta md now = false →
    (getContext (shareContext mgr cid [a]).2 cid a now).1 = some c) ∧
  (md.access_level = .privateLevel → alGet pm a = none → a ≠ md.owner →
    (getContext mgr cid a now).1 = none) ∧
  (md.access_level = .privateLevel → alGet pm md.owner = none →
    isExpiredMeta md now = false →
    (getContext mgr cid md.owner now).1 = some c)

/-! ## Concrete states used by counterexamples and witnesses -/

/-- unwrap a tracker-valued `Except`, defaulting to the given state. -/
def exceptTracker (e : Except String DependencyTracker)
    (d : DependencyTracker) : DependencyTracker :=
  match e with
  | .ok t => t
  | .error _ => d

/-- `true` iff the call succeeded. -/
def exceptOk (e : Except String DependencyTracker) : Bool :=
  match e with
  | .ok _ => true
  | .error _ => false

def taskA : Task := { id := "A", name := "Task A", assigned_to := "agent1" }

def taskB : Task := { id := "B", name := "Task B", assigned_to := "agent2" }

/-- Tracker holding tasks A and B, no edges. -/
def c1Base : DependencyTracker := addTask (addTask {} taskA) taskB

/-- Tracker after the accepted call `add_dependency(A, B)`. -/
def c1Step : DependencyTracker :=
  exceptTracker (addDependency c1Base "A" "B") c1Base

def taskD1 : Task := { id := "D", name := "first", assigned_to := "X" }

def taskD2 : Task := { id := "D", name := "second", assigned_to := "Y" }

/-- Tracker already holding the task with id D. -/
def c5Tracker : DependencyTracker := addTask {} taskD1

def c2Option : ConflictOption := { option_id := "opt1", proposed_by := "A" }

def c2Conflict : Conflict :=
  { conflict_id := "c1", conflict_type := .decision_conflict,
    agents_involved := ["A", "B"], topic := "deploy",
    options := [("opt1", c2Option)] }

/-- Resolver holding one open conflict, with an escalation handler set. -/
def c2Res : ConflictResolver :=
  { conflicts := [("c1", c2Conflict)], escalation_handler_set := true }

def c7Opt1 : ConflictOption :=
  { option_id := "opt1", proposed_by := "A", votes := ["A"] }

def c7Opt2 : ConflictOption :=
  { option_id := "opt2", proposed_by := "B", votes := ["A"] }

/-- A conflict with one involved agent who voted for both options, so
both options carry a full vote count. -/
def c7Conflict : Conflict :=
  { conflict_id := "cc", conflict_type := .decision_conflict,
    agents_involved := ["A"], topic := "api",
    options := [("opt1", c7Opt1), ("opt2", c7Opt2)] }

def c7Res : ConflictResolver := { conflicts := [("cc", c7Conflict)] }

def c7wOpt1 : ConflictOption :=
  { option_id := "opt1", proposed_by := "A", votes := ["A", "B"] }

def c7wOpt2 : ConflictOption :=
  { option_id := "opt2", proposed_by := "C", votes := ["C"] }

/-- The spec's worked example: three agents, votes 2 to 1. -/
def c7wConflict : Conflict :=
  { conflict_id := "w", conflict_type := .decision_conflict,
    agents_involved := ["A", "B", "C"], topic := "db",
    options := [("opt1", c7wOpt1), ("opt2", c7wOpt2)] }

def c7wRes : ConflictResolver := { conflicts := [("w", c7wConflict)] }

def c6tA : Task := { id := "ta", name := "a", assigned_to := "x", priority := 2 }

def c6tB : Task := { id := "tb", name := "b", assigned_to := "x", priority := 1 }

def c6tC : Task := { id := "tc", name := "c", assigned_to := "x", priority := 2 }

def c6tD : Task :=
  { id := "td", name := "d", assigned_to := "x", status := .completed }

def c6tE : Task := { id := "te", name := "e", assigned_to := "x" }

/-- A tracker mixing ready tasks of different priorities (tb before ta
by priority, ta before tc by insertion order), a completed blocker and
a task blocked by a still-pending one. -/
def c6Tracker : DependencyTracker :=
  { tasks := [("ta", c6tA), ("tb", c6tB), ("tc", c6tC), ("td", c6tD),
      ("te", c6tE)]
    dependencies := [("ta", []), ("tb", ["td"]), ("tc", []), ("td", []),
      ("te", ["ta"])]
    dependents := [("td", ["tb"]), ("ta", ["te"])] }

/-- A fully populated message whose single recipient is the empty
string. -/
def c8Msg : Message :=
  { id := some "m8", from_agent := some "alice",
    to_agent := some (.one ""), msg_type := some .ack,
    subject := some "subj", data := some [], timestamp := some 0 }

/-- A message addressed to a two-element recipient list. -/
def c9Msg : Message :=
  { id := some "m9", from_agent := some "alice",
    to_agent := some (.many ["bob", "carol"]),
    msg_type := some .task_request, subject := some "s",
    data := some [], timestamp := some 0 }

/-- unwrap a successful `create_context`, defaulting to the empty
manager. -/
def exceptManager (e : Except String (CtxObj × ContextManager)) :
    ContextManager :=
  match e with
  | .ok p => p.2
  | .error _ => {}

/-- Manager holding one TEAM context "doc" created by Owner at t=0. -/
def c3Mgr1 : ContextManager :=
  exceptManager
    (createContext {} "doc" .project "Owner" [("k", .pyint 1)] .team []
      none 0)

/-- The state after Owner patches "doc" at t=5. -/
def c3Mgr2 : ContextManager :=
  (updateContext c3Mgr1 "doc" "Owner" [("k2", .pyint 2)] 5).2

/-- The context object the creation above allocated. -/
def c3Ctx : CtxObj := { metaRef := 0, dataRef := 1, permsRef := 2 }

/-- Its metadata object as created. -/
def c3Md : ContextMetadata :=
  { context_id := "doc", context_type := .project, owner := "Owner" }

/-- Manager holding one TEAM context "board" owned by Designer. -/
def c4Mgr : ContextManager :=
  exceptManager (createContext {} "board" .sprint "Designer" [] .team []
    none 0)

def c4Ctx : CtxObj := { metaRef := 0, dataRef := 1, permsRef := 2 }

def c4Md : ContextMetadata :=
  { context_id := "board", context_type := .sprint, owner := "Designer" }

/-- Manager holding one PRIVATE context "secret" owned by Owner. -/
def c10Mgr : ContextManager :=
  exceptManager (createContext {} "secret" .decision "Owner" []
    .privateLevel [] none 0)

def c10Ctx : CtxObj := { metaRef := 0, dataRef := 1, permsRef := 2 }

/-! ## Shared association-list lemmas -/

theorem alGet_alSet_self {κ α : Type} [DecidableEq κ]
    (m : List (κ × α)) (k : κ) (v : α) : alGet (alSet m k v) k = some v := by
  induction m with
  | nil => simp [alGet, alSet]
  | cons hd tl ih =>
      by_cases h : hd.1 = k
      · simp [alSet, alGet, h]
      · simp [alSet, alGet, h, ih]

theorem alGet_alSet_ne {κ α : Type} [DecidableEq κ]
    (m : List (κ × α)) (k k2 : κ) (v : α) (h : k2 ≠ k) :
    alGet (alSet m k v) k2 = alGet m k2 := by
  induction m with
  | nil =>
      simp only [alSet, alGet]
      rw [if_neg (fun hh => h hh.symm)]
  | cons hd tl ih =>
      rcases hd with ⟨k3, v3⟩
      by_cases hh : k3 = k
      · subst hh
        simp only [alSet, if_pos rfl, alGet]
        rw [if_neg (fun hh2 => h hh2.symm), if_neg (fun hh2 => h hh2.symm)]
      · simp only [alSet, if_neg hh, alGet]
        by_cases hh2 : k3 = k2
        · rw [if_pos hh2, if_pos hh2]
        · rw [if_neg hh2, if_neg hh2]
          exact ih

theorem alGet_append_of_not_mem {κ α : Type} [DecidableEq κ]
    (xs ys : List (κ × α)) (k : κ) (h : alMem xs k = false) :
    alGet (xs ++ ys) k = alGet ys k := by
  induction xs with
  | nil => simp
  | cons hd tl ih =>
      by_cases hh : hd.1 = k
      · exfalso
        simp [alMem, alGet, hh] at h
      · simp only [alMem, alGet, if_neg hh] at h
        simp [alGet, hh, ih h]

/-! ## C1 -/

/-- C1: the claim says that after `add_dependency(A, B)` succeeds, a
subsequent `add_dependency(B, A)` is rejected with a cycle error and
the adjacency maps are left unchanged, keeping the edge set a DAG.
The code does the opposite: `_would_create_cycle` searches the
`dependents` adjacency starting from the blocking task, which reaches
only the tasks that depend on it, never the tasks it depends on, so
the reverse edge is accepted and both adjacency maps then contain the
two-cycle A <-> B.  (The repository's own test `test_cycle_detection`
expects a `ValueError` from exactly this call sequence.) -/
theorem addDependency_cycle_accepted_bug :
    exceptOk (addDependency c1Base "A" "B") = true ∧
    exceptOk (addDependency c1Step "B" "A") = true ∧
    (alGet (exceptTracker (addDependency c1Step "B" "A") c1Step).dependencies
      "A").getD [] = ["B"] ∧
    (alGet (exceptTracker (addDependency c1Step "B" "A") c1Step).dependencies
      "B").getD [] = ["A"] := by
  refine ⟨by decide, by decide, by decide, by decide⟩

/-! ## C5 -/

/-- C5 counterexample: re-registering id D does not fail — `add_task`
has no duplicate check — and the previously stored task object is
replaced by the new one, contradicting the claimed hard failure that
leaves the registered task unchanged. -/
theorem addTask_duplicate_refuted :
    alGet (addTask c5Tracker taskD2).tasks "D" = some taskD2 ∧
    taskD2 ≠ taskD1 := by
  refine ⟨by decide, by decide⟩

/-- C5 amended: calling `add_task` again with a task bearing an
already-registered id never fails; it silently overwrites the stored
task object in place while both adjacency maps (which already have
entries for that id) are left completely unchanged. -/
theorem addTask_duplicate_amended (tr : DependencyTracker) (t : Task)
    (hdep : alMem tr.dependencies t.id = true)
    (hdnt : alMem tr.dependents t.id = true) :
    (addTask tr t).tasks = alSet tr.tasks t.id t ∧
    (addTask tr t).dependencies = tr.dependencies ∧
    (addTask tr t).dependents = tr.dependents ∧
    alGet (addTask tr t).tasks t.id = some t := by
  refine ⟨rfl, ?_, ?_, ?_⟩
  · simp [addTask, hdep]
  · simp [addTask, hdnt]
  · simpa [addTask] using alGet_alSet_self tr.tasks t.id t

/-- C5 amended, witnessed on the concrete duplicate-id state. -/
theorem addTask_duplicate_amended_witness :
    (addTask c5Tracker taskD2).tasks = alSet c5Tracker.tasks "D" taskD2 ∧
    (addTask c5Tracker taskD2).dependencies = c5Tracker.dependencies ∧
    (addTask c5Tracker taskD2).dependents = c5Tracker.dependents ∧
    alGet (addTask c5Tracker taskD2).tasks "D" = some taskD2 :=
  addTask_duplicate_amended c5Tracker taskD2 (by decide) (by decide)

/-! ## Helper lemmas for the conflict resolver -/

/-- The fold inside `getWinningOption` computes the CPython `max`:
the first element of maximal vote count. -/
theorem foldl_max_isFirstMax (xs : List (String × ConflictOption)) :
    ∀ x : String × ConflictOption,
      IsFirstMax (x :: xs)
        (xs.foldl (fun best p =>
          if p.2.votes.length > best.2.votes.length then p else best) x) := by
  induction xs with
  | nil =>
      intro x
      exact ⟨[], [], rfl, by simp, by simp⟩
  | cons y ys ih =>
      intro x
      simp only [List.foldl]
      by_cases hgt : y.2.votes.length > x.2.votes.length
      · rw [if_pos hgt]
        obtain ⟨pre, post, hdec, hpre, hpost⟩ := ih y
        cases pre with
        | nil =>
            simp only [List.nil_append, List.cons.injEq] at hdec
            obtain ⟨hy, hys⟩ := hdec
            refine ⟨[x], post, ?_, ?_, hpost⟩
            · conv_rhs => rw [← hy, ← hys]
              simp
            · intro q hq
              have hqx := List.mem_singleton.mp hq
              subst hqx
              rw [← hy]
              exact hgt
        | cons p0 pre2 =>
            simp only [List.cons_append, List.cons.injEq] at hdec
            obtain ⟨hy, hys⟩ := hdec
            refine ⟨x :: y :: pre2, post, ?_, ?_, hpost⟩
            · conv_lhs => rw [hys]
              simp
            · intro q hq
              have hy_lt : y.2.votes.length <
                  (ys.foldl (fun best p =>
                    if p.2.votes.length > best.2.votes.length then p
                    else best) y).2.votes.length := by
                have hp0 := hpre p0 (List.mem_cons_self _ _)
                rw [← hy] at hp0
                exact hp0
              rcases List.mem_cons.mp hq with hq1 | hq2
              · subst hq1
                exact lt_trans hgt hy_lt
              · rcases List.mem_cons.mp hq2 with hq3 | hq4
                · subst hq3
                  exact hy_lt
                · exact hpre q (List.mem_cons_of_mem _ hq4)
      · rw [if_neg hgt]
        have hle : y.2.votes.length ≤ x.2.votes.length := Nat.not_lt.mp hgt
        obtain ⟨pre, post, hdec, hpre, hpost⟩ := ih x
        cases pre with
        | nil =>
            simp only [List.nil_append, List.cons.injEq] at hdec
            obtain ⟨hx, hys⟩ := hdec
            refine ⟨[], y :: post, ?_, by simp, ?_⟩
            · conv_rhs => rw [← hx, ← hys]
              simp
            · intro q hq
              rcases List.mem_cons.mp hq with hq1 | hq2
              · subst hq1
                rw [← hx]
                exact hle
              · exact hpost q hq2
        | cons p0 pre2 =>
            simp only [List.cons_append, List.cons.injEq] at hdec
            obtain ⟨hx, hys⟩ := hdec
            have hx_lt : x.2.votes.length <
                (ys.foldl (fun best p =>
                  if p.2.votes.length > best.2.votes.length then p
                  else best) x).2.votes.length := by
              have hp0 := hpre p0 (List.mem_cons_self _ _)
              rw [← hx] at hp0
              exact hp0
            refine ⟨x :: y :: pre2, post, ?_, ?_, hpost⟩
            · conv_lhs => rw [hys]
              simp
            · intro q hq
              rcases List.mem_cons.mp hq with hq1 | hq2
              · subst hq1
                exact hx_lt
              · rcases List.mem_cons.mp hq2 with hq3 | hq4
                · subst hq3
                  exact lt_of_le_of_lt hle hx_lt
                · exact hpre q (List.mem_cons_of_mem _ hq4)

/-- `List.find?` returns the first satisfying element: the prefix
before it refutes the predicate. -/
theorem find?_first_decomp {α : Type} (p : α → Bool) (l : List α) (x : α)
    (h : l.find? p = some x) :
    ∃ pre post, l = pre ++ x :: post ∧
      (∀ q ∈ pre, p q = false) ∧ p x = true := by
  induction l with
  | nil => simp [List.find?] at h
  | cons a as ih =>
      by_cases hp : p a
      · rw [List.find?_cons_of_pos _ hp] at h
        obtain rfl : a = x := by injection h
        exact ⟨[], as, rfl, by simp, hp⟩
      · rw [List.find?_cons_of_neg _ (by simpa using hp)] at h
        obtain ⟨pre, post, hd, hpre, hx⟩ := ih h
        refine ⟨a :: pre, post, by simp [hd], ?_, hx⟩
        intro q hq
        rcases List.mem_cons.mp hq with hq1 | hq2
        · subst hq1
          simpa using hp
        · exact hpre q hq2

/-! ## C2 -/

/-- C2 counterexample: with an escalation handler injected, `resolve`
under the ESCALATE strategy returns no option id (as claimed) but the
conflict's status stays OPEN — it is not transitioned to ESCALATED —
and the whole resolver state is unchanged, so the handler cannot have
been invoked. -/
theorem resolve_escalate_claim_refuted :
    (resolveConflict c2Res "c1" .escalate 0 0).1 = none ∧
    (resolveConflict c2Res "c1" .escalate 0 0).2 = c2Res ∧
    (alGet (resolveConflict c2Res "c1" .escalate 0 0).2.conflicts
      "c1").map Conflict.status ≠ some ConflictStatus.escalated ∧
    c2Res.escalation_handler_set = true := by
  refine ⟨by decide, by decide, by decide, by decide⟩

/-- C2 amended: `resolve` with the ESCALATE strategy never returns an
option id and leaves the resolver completely unchanged (in particular
the conflict stays in its current status and the injected handler is
not invoked); the transition to ESCALATED and the handler invocation
happen only through the separate `escalate_conflict` operation, which
performs them and calls the handler exactly when one is set. -/
theorem resolve_escalate_amended (res : ConflictResolver)
    (cid reason : String) (rnd now : Nat) (c : Conflict)
    (h : alGet res.conflicts cid = some c) :
    resolveConflict res cid .escalate rnd now = (none, res) ∧
    (escalateConflict res cid reason).1 = true ∧
    alGet (escalateConflict res cid reason).2.1.conflicts cid =
      some ({ c with
        status := .escalated
        escalation_reason := some reason }) ∧
    (escalateConflict res cid reason).2.2 = res.escalation_handler_set := by
  refine ⟨?_, ?_, ?_, ?_⟩
  · simp [resolveConflict, h, truthyOpt]
  · simp [escalateConflict, h]
  · simp [escalateConflict, h, alGet_alSet_self]
  · simp [escalateConflict, h]

/-- C2 amended, witnessed on the concrete resolver state. -/
theorem resolve_escalate_amended_witness :
    resolveConflict c2Res "c1" .escalate 0 0 = (none, c2Res) ∧
    (escalateConflict c2Res "c1" "stuck").1 = true ∧
    alGet (escalateConflict c2Res "c1" "stuck").2.1.conflicts "c1" =
      some ({ c2Conflict with
        status := .escalated
        escalation_reason := some "stuck" }) ∧
    (escalateConflict c2Res "c1" "stuck").2.2 =
      c2Res.escalation_handler_set :=
  resolve_escalate_amended c2Res "c1" "stuck" 0 0 c2Conflict (by decide)

/-! ## C7 -/

/-- C7 counterexample: two options both have a vote count equal to the
number of involved agents, so no unique full-vote option exists, yet
`resolve` under CONSENSUS returns the first of them rather than the
none the claim demands. -/
theorem consensus_unique_refuted :
    (c7Conflict.options.filter (fun p =>
      p.2.votes.length == c7Conflict.agents_involved.length)).length = 2 ∧
    (resolveConflict c7Res "cc" .consensus 0 0).1 = some "opt1" := by
  refine ⟨by decide, by decide⟩

/-- C7 amended: for a fixed conflict whose option keys and ids are
non-empty strings (as `create_conflict` produces), `resolve` with
MAJORITY_VOTE deterministically returns the option with the highest
vote count, ties broken in favor of the first-inserted option, and
`resolve` with CONSENSUS returns the FIRST option in insertion order
whose vote count equals the number of involved agents — not the
unique such option — and none exactly when no option has a full vote
count. -/
theorem resolve_vote_strategies_amended (res : ConflictResolver)
    (cid : String) (c : Conflict) (rnd now : Nat)
    (h : alGet res.conflicts cid = some c)
    (hne : c.options ≠ [])
    (hkeys : ∀ p ∈ c.options, p.1 ≠ "")
    (hids : ∀ p ∈ c.options, p.2.option_id ≠ "") :
    voteStrategiesSpec res cid c rnd now := by
  obtain ⟨k0, opts, hopts⟩ : ∃ k0 opts, c.options = k0 :: opts := by
    cases hc : c.options with
    | nil => exact absurd hc hne
    | cons a l => exact ⟨a, l, rfl⟩
  refine ⟨?_, ?_, ?_⟩
  · have hfm : IsFirstMax c.options
        (opts.foldl (fun best p =>
          if p.2.votes.length > best.2.votes.length then p else best) k0) := by
      rw [hopts]
      exact foldl_max_isFirstMax opts k0
    have hmem : (opts.foldl (fun best p =>
        if p.2.votes.length > best.2.votes.length then p else best) k0) ∈
        c.options := by
      obtain ⟨pre, post, hd, _, _⟩ := hfm
      rw [hd]
      exact List.mem_append_right _ (List.mem_cons_self _ _)
    have hm1 : (opts.foldl (fun best p =>
        if p.2.votes.length > best.2.votes.length then p else best) k0).1 ≠
        "" := hkeys _ hmem
    refine ⟨_, hfm, ?_⟩
    have hwin : resolveByMajority c = some (opts.foldl (fun best p =>
        if p.2.votes.length > best.2.votes.length then p else best) k0).1 := by
      simp [resolveByMajority, hne, getWinningOption, hopts]
    simp [resolveConflict, h, hwin, truthyOpt, hm1]
  · cases hfind : c.options.find? (fun p =>
        p.2.votes.length = c.agents_involved.length) with
    | none =>
        have hres : (resolveConflict res cid .consensus rnd now).1 = none := by
          simp [resolveConflict, h, resolveByConsensus, hfind, truthyOpt]
        rw [hres]
        constructor
        · intro _ p hp
          have hq := List.find?_eq_none.mp hfind p hp
          simpa using hq
        · intro _
          rfl
    | some p =>
        have hpmem : p ∈ c.options := List.mem_of_find?_eq_some hfind
        have hpid : p.2.option_id ≠ "" := hids p hpmem
        have hres : (resolveConflict res cid .consensus rnd now).1 =
            some p.2.option_id := by
          simp [resolveConflict, h, resolveByConsensus, hfind, truthyOpt, hpid]
        rw [hres]
        have hpfull : p.2.votes.length = c.agents_involved.length := by
          have hq := List.find?_some hfind
          simpa using hq
        constructor
        · intro hco
          exact absurd hco (by simp)
        · intro hall
          exact absurd hpfull (hall p hpmem)
  · intro k hk
    cases hfind : c.options.find? (fun p =>
        p.2.votes.length = c.agents_involved.length) with
    | none =>
        have hres : (resolveConflict res cid .consensus rnd now).1 = none := by
          simp [resolveConflict, h, resolveByConsensus, hfind, truthyOpt]
        rw [hres] at hk
        cases hk
    | some p =>
        have hpmem : p ∈ c.options := List.mem_of_find?_eq_some hfind
        have hpid : p.2.option_id ≠ "" := hids p hpmem
        have hres : (resolveConflict res cid .consensus rnd now).1 =
            some p.2.option_id := by
          simp [resolveConflict, h, resolveByConsensus, hfind, truthyOpt, hpid]
        rw [hres] at hk
        have hkp : p.2.option_id = k := by injection hk
        obtain ⟨pre, post, hd, hpre, hpx⟩ := find?_first_decomp _ _ _ hfind
        refine ⟨pre, p, post, hd, by simpa using hpx, ?_, hkp.symm⟩
        intro q hq
        have hqf := hpre q hq
        simpa using hqf

/-- C7 amended, witnessed on the spec's worked example. -/
theorem resolve_vote_strategies_amended_witness :
    voteStrategiesSpec c7wRes "w" c7wConflict 0 0 :=
  resolve_vote_strategies_amended c7wRes "w" c7wConflict 0 0 (by decide)
    (by decide) (by decide) (by decide)

/-! ## C6 -/

theorem mem_of_alGet {κ α : Type} [DecidableEq κ]
    (m : List (κ × α)) (k : κ) (v : α) (h : alGet m k = some v) :
    (k, v) ∈ m := by
  induction m with
  | nil => simp [alGet] at h
  | cons hd tl ih =>
      rcases hd with ⟨k2, v2⟩
      by_cases hk : k2 = k
      · subst hk
        have h3 : v2 = v := by simpa [alGet] using h
        subst h3
        exact List.mem_cons_self _ _
      · simp only [alGet, if_neg hk] at h
        exact List.mem_cons_of_mem _ (ih h)

/-- With every blocker id registered, the code's `is_ready` coincides
with the spec-side all-blockers-COMPLETED condition. -/
theorem isReady_iff (tr : DependencyTracker) (k : String)
    (h : ∀ b ∈ (alGet tr.dependencies k).getD [], alMem tr.tasks b = true) :
    isReady tr k = true ↔ allBlockersCompleted tr k := by
  unfold isReady getBlockers allBlockersCompleted
  simp only [decide_eq_true_eq, List.length_eq_zero,
    List.filterMap_eq_nil_iff]
  constructor
  · intro hall b hb
    have hf := hall b hb
    have hm := h b hb
    cases hg : alGet tr.tasks b with
    | none => simp [alMem, hg] at hm
    | some t =>
        rw [hg] at hf
        by_cases hs : t.status = .completed
        · exact ⟨t, rfl, hs⟩
        · simp [hs] at hf
  · intro hall b hb
    obtain ⟨t, hg, hs⟩ := hall b hb
    simp [hg, hs]

/-- Inserting into a sorted-by-priority list commutes with filtering a
single priority class: the skipped prefix has strictly smaller
priority, so it never meets the inserted task's class. -/
theorem filter_orderedInsert (p : Int) (x : Task) (l : List Task) :
    (l.orderedInsert taskLE x).filter (fun t => t.priority == p) =
      if x.priority == p then
        x :: l.filter (fun t => t.priority == p)
      else l.filter (fun t => t.priority == p) := by
  induction l with
  | nil =>
      cases hxp : (x.priority == p) <;>
        simp [List.orderedInsert, List.filter, hxp]
  | cons y ys ih =>
      simp only [List.orderedInsert]
      by_cases hle : taskLE x y
      · rw [if_pos hle]
        cases hxp : (x.priority == p) <;>
          simp [List.filter_cons, hxp]
      · rw [if_neg hle]
        have hylt : y.priority < x.priority := by
          simpa [taskLE, Int.not_le] using hle
        cases hxp : (x.priority == p)
        · simp only [List.filter_cons, ih, hxp, if_neg Bool.false_ne_true]
        · have hxp2 : x.priority = p := by simpa using hxp
          have hyp : (y.priority == p) = false := by
            have : y.priority ≠ p := by omega
            simpa using this
          simp [List.filter_cons, hyp, ih, hxp]

/-- Stability of the stable sort, per priority class. -/
theorem filter_insertionSort (p : Int) (l : List Task) :
    (l.insertionSort taskLE).filter (fun t => t.priority == p) =
      l.filter (fun t => t.priority == p) := by
  induction l with
  | nil => rfl
  | cons x xs ih =>
      simp only [List.insertionSort]
      rw [filter_orderedInsert]
      cases hxp : (x.priority == p) <;> simp [List.filter_cons, hxp, ih]

/-- C6: in a tracker whose dependency edges all point at registered
tasks (which the public operations guarantee), `get_ready_tasks`
returns exactly the PENDING tasks all of whose blocking tasks are
COMPLETED (FAILED or IN_PROGRESS blockers still block), sorted
ascending by the integer priority, ties in task-map insertion order. -/
theorem get_ready_tasks_spec (tr : DependencyTracker)
    (hwf : ∀ kv ∈ tr.dependencies, ∀ b ∈ kv.2, alMem tr.tasks b = true) :
    readyTasksSpec tr := by
  have hkey : ∀ k, ∀ b ∈ (alGet tr.dependencies k).getD [],
      alMem tr.tasks b = true := by
    intro k b hb
    cases hg : alGet tr.dependencies k with
    | none =>
        rw [hg] at hb
        simp at hb
    | some bids =>
        rw [hg] at hb
        exact hwf (k, bids) (mem_of_alGet _ _ _ hg) b hb
  refine ⟨?_, ?_, ?_⟩
  · intro t
    constructor
    · intro ht
      have ht2 : t ∈ (tr.tasks.filter fun q =>
          q.2.status = .pending ∧ isReady tr q.1).map (fun q => q.2) := by
        simpa [getReadyTasks, List.mem_insertionSort] using ht
      obtain ⟨q, hq, hqt⟩ := List.mem_map.mp ht2
      subst hqt
      have hq2 := List.mem_filter.mp hq
      have hcond : q.2.status = .pending ∧ isReady tr q.1 = true := by
        simpa using hq2.2
      exact ⟨q.1, by simpa using hq2.1, hcond.1,
        (isReady_iff tr q.1 (hkey q.1)).mp hcond.2⟩
    · rintro ⟨k, hkt, hst, hab⟩
      have hready := (isReady_iff tr k (hkey k)).mpr hab
      have hmem : (k, t) ∈ tr.tasks.filter (fun q =>
          q.2.status = .pending ∧ isReady tr q.1) := by
        refine List.mem_filter.mpr ⟨hkt, ?_⟩
        simp [hst, hready]
      have ht2 : t ∈ (tr.tasks.filter fun q =>
          q.2.status = .pending ∧ isReady tr q.1).map (fun q => q.2) :=
        List.mem_map.mpr ⟨(k, t), hmem, rfl⟩
      simpa [getReadyTasks, List.mem_insertionSort] using ht2
  · simpa [getReadyTasks] using
      List.sorted_insertionSort (r := taskLE)
        ((tr.tasks.filter fun q =>
          q.2.status = .pending ∧ isReady tr q.1).map (fun q => q.2))
  · intro p
    simpa [getReadyTasks] using
      filter_insertionSort p ((tr.tasks.filter fun q =>
        q.2.status = .pending ∧ isReady tr q.1).map (fun q => q.2))

/-- C6, witnessed on the concrete mixed-priority tracker. -/
theorem get_ready_tasks_spec_witness : readyTasksSpec c6Tracker :=
  get_ready_tasks_spec c6Tracker (by decide)

/-! ## C8 -/

/-- C8 counterexample: a message whose `to_agent` is the empty string
passes validation — the recipient check only rejects an empty LIST; a
plain string of any content, including the empty string, is accepted —
contradicting the claim that an empty-string recipient is rejected. -/
theorem validate_empty_recipient_refuted :
    c8Msg.to_agent = some (.one "") ∧
    validateMessage c8Msg 0 = (true, none) := by
  refine ⟨by decide, by decide⟩

/-- C8 amended: `validate_message` fails naming the missing field when
a required field is null, rejects an empty recipient LIST, fails as
expired when the elapsed time since the timestamp strictly exceeds
`ttl`, and accepts any string recipient — the empty string included;
validation computes a verdict and never changes the message. -/
theorem validate_message_amended (m : Message) (now : Nat) :
    validateSpec m now := by
  refine ⟨?_, ?_, ?_, ?_, ?_, ?_, ?_, ?_, ?_, ?_, ?_⟩
  · intro hv
    by_cases h1 : m.id = none
    · simp [validateMessage, h1] at hv
    by_cases h2 : m.from_agent = none
    · simp [validateMessage, h1, h2] at hv
    by_cases h3 : m.to_agent = none
    · simp [validateMessage, h1, h2, h3] at hv
    by_cases h4 : m.msg_type = none
    · simp [validateMessage, h1, h2, h3, h4] at hv
    by_cases h5 : m.subject = none
    · simp [validateMessage, h1, h2, h3, h4, h5] at hv
    by_cases h6 : m.data = none
    · simp [validateMessage, h1, h2, h3, h4, h5, h6] at hv
    exact ⟨h1, h2, h3, h4, h5, h6⟩
  · intro h1 h2 h3 h4 h5 h6
    simp [validateMessage, h1]
  · intro h1 h2 h3 h4 h5 h6
    simp [validateMessage, h1, h2]
  · intro h1 h2 h3 h4 h5 h6
    simp [validateMessage, h1, h2, h3]
  · intro h1 h2 h3 h4 h5 h6
    simp [validateMessage, h1, h2, h3, h4]
  · intro h1 h2 h3 h4 h5 h6
    simp [validateMessage, h1, h2, h3, h4, h5]
  · intro h1 h2 h3 h4 h5 h6
    simp [validateMessage, h1, h2, h3, h4, h5, h6]
  · intro h1 h2 h4 h5 h6 hto
    simp [validateMessage, h1, h2, hto, h4, h5, h6]
  · intro s h1 h2 h4 h5 h6 hto hexp
    simp [validateMessage, h1, h2, hto, h4, h5, h6, hexp]
  · intro s h1 h2 h4 h5 h6 hto hexp
    simp [validateMessage, h1, h2, hto, h4, h5, h6, hexp]
  · intro ts t hts httl
    simp [isExpiredMsg, hts, httl]

/-- C8 amended, witnessed on the empty-recipient message. -/
theorem validate_message_amended_witness : validateSpec c8Msg 0 :=
  validate_message_amended c8Msg 0

/-! ## C9 -/

/-- C9: `send_message` of a multi-recipient message publishes exactly
one message, to the channel derived from the FIRST recipient; the
other recipients receive nothing from `send_message`, and
`broadcast_message` of a non-list recipient publishes nothing and
returns an empty delivery-id list. -/
theorem send_broadcast_spec (bus : MessageBus) (m : Message) (now : Nat) :
    sendBroadcastSpec bus m now := by
  refine ⟨?_, ?_, ?_⟩
  · intro r rs hto
    simp [sendMessage, channelOf, hto]
  · intro s hto
    simp [broadcastMessage, hto]
  · intro hto
    simp [broadcastMessage, hto]

/-- C9, witnessed on the two-recipient message over the empty bus. -/
theorem send_broadcast_spec_witness : sendBroadcastSpec {} c9Msg 0 :=
  send_broadcast_spec {} c9Msg 0

/-! ## C3 -/

theorem alMem_map_fst {κ α : Type} [DecidableEq κ]
    (m : List (κ × α)) (k : κ) (h : alMem m k = true) :
    k ∈ m.map Prod.fst := by
  unfold alMem at h
  cases hg : alGet m k with
  | none =>
      rw [hg] at h
      simp at h
  | some v => exact List.mem_map.mpr ⟨(k, v), mem_of_alGet _ _ _ hg, rfl⟩

/-- C3 counterexample: after Owner creates "doc" (version 1) and then
patches it once, the entry archived by the update shares its metadata
object with the live context, so the version it shows is the
POST-update 2, not the pre-update 1 the claimed deep copy would have
preserved. -/
theorem update_deep_copy_refuted :
    (updateContext c3Mgr1 "doc" "Owner" [("k2", .pyint 2)] 5).1 = true ∧
    archivedVersion c3Mgr2 "doc" = some 2 ∧
    archivedVersion c3Mgr2 "doc" ≠ some 1 := by
  refine ⟨by decide, by decide, by decide⟩

/-- C3 amended: a successful owner-issued update appends exactly one
history entry; the entry's `data` and `access_permissions` are fresh
shallow copies of the pre-update dictionaries, its metadata object is
the live one (so the archived version reads as the post-update
version, not the pre-update one), the patch is shallow-merged into the
live data with top-level keys overriding, and the live version
increases by exactly 1. -/
theorem update_context_amended (mgr : ContextManager) (cid agent : String)
    (patch : List (String × PyVal)) (now : Nat) (c : CtxObj)
    (md : ContextMetadata) (d : List (String × PyVal))
    (hc : alGet mgr.contexts cid = some c)
    (hm : alGet mgr.metas c.metaRef = some md)
    (hd : alGet mgr.datas c.dataRef = some d)
    (hown : agent = md.owner)
    (hfreshd : ∀ r ∈ mgr.datas.map Prod.fst, r < mgr.nextRef)
    (hdref : c.dataRef < mgr.nextRef) :
    updateAmendedSpec mgr cid agent patch now c md d := by
  have hne : (mgr.nextRef : Nat) ≠ c.dataRef := by omega
  have hnm : alMem mgr.datas mgr.nextRef = false := by
    cases hmem : alMem mgr.datas mgr.nextRef
    · rfl
    · have hlt := hfreshd mgr.nextRef (alMem_map_fst _ _ hmem)
      omega
  have hdatas : (updateContext mgr cid agent patch now).2.datas =
      alSet (mgr.datas ++ [(mgr.nextRef, d)]) c.dataRef
        (dictUpdate d patch) := by
    simp [updateContext, hc, hm, hown, hd]
  have hmetas : (updateContext mgr cid agent patch now).2.metas =
      alSet mgr.metas c.metaRef
        ({ md with updated_at := now, version := md.version + 1 }) := by
    simp [updateContext, hc, hm, hown, hd]
  refine ⟨?_, ?_, ?_, ?_, ?_, ?_⟩
  · simp [updateContext, hc, hm, hown]
  · simp only [updateContext, hc, hm, hown, hd]
    simp [alGet_alSet_self]
  · rw [hdatas, alGet_alSet_ne _ _ _ _ hne,
      alGet_append_of_not_mem _ _ _ hnm]
    simp [alGet]
  · rw [hdatas, alGet_alSet_self]
  · rw [hmetas, alGet_alSet_self]
  · rw [hmetas, alGet_alSet_self]
    rfl

/-- C3 amended, witnessed on the concrete created-then-patched
manager. -/
theorem update_context_amended_witness :
    updateAmendedSpec c3Mgr1 "doc" "Owner" [("k2", .pyint 2)] 5 c3Ctx
      c3Md [("k", .pyint 1)] :=
  update_context_amended c3Mgr1 "doc" "Owner" [("k2", .pyint 2)] 5 c3Ctx
    c3Md [("k", .pyint 1)] (by decide) (by decide) (by decide) (by decide)
    (by decide) (by decide)

/-! ## C4 -/

/-- C4: `has_access` follows the precedence rule — an explicit
per-agent permission entry decides first; otherwise PUBLIC grants
everyone, PRIVATE grants only the owner, TEAM and ROLE grant no one —
and `get_context` returns absent whenever access is denied; for a TEAM
context an agent without a grant gets absent and gets the context
after `share_context`, and a PRIVATE context is retrievable only by
its owner. -/
theorem get_context_access_spec (mgr : ContextManager) (cid : String)
    (c : CtxObj) (md : ContextMetadata) (a : String) (now : Nat)
    (hc : alGet mgr.contexts cid = some c)
    (hm : alGet mgr.metas c.metaRef = some md) :
    accessControlSpec mgr cid c md a now := by
  have hdeny : ∀ mgr2 : ContextManager,
      alGet mgr2.contexts cid = some c →
      alGet mgr2.metas c.metaRef = some md →
      hasAccess mgr2 c a = false → (getContext mgr2 cid a now).1 = none := by
    intro mgr2 hc2 hm2 hnoacc
    cases hexp : isExpiredMeta md now <;>
      simp [getContext, hc2, hm2, hexp, hnoacc]
  refine ⟨?_, hdeny mgr hc hm, ?_, ?_, ?_, ?_⟩
  · cases hpm : alGet ((alGet mgr.perms c.permsRef).getD []) a with
    | some b =>
        cases b <;> simp [hasAccess, hpm, hm]
    | none =>
        cases hal : md.access_level <;>
          simp [hasAccess, hpm, hm, hal]
  · intro hteam hpm
    refine hdeny mgr hc hm ?_
    simp [hasAccess, hpm, hm, hteam]
  · intro hteam hexp
    have hshare : (shareContext mgr cid [a]).2 =
        subscribeAgent (grantAccess mgr c a) cid a := by
      simp [shareContext, hc]
    rw [hshare]
    set mgr2 := subscribeAgent (grantAccess mgr c a) cid a with hmgr2
    have hc2 : alGet mgr2.contexts cid = some c := by
      simp [hmgr2, subscribeAgent, grantAccess, hc]
    have hmm2 : alGet mgr2.metas c.metaRef = some md := by
      simp [hmgr2, subscribeAgent, grantAccess, hm]
    have hacc : hasAccess mgr2 c a = true := by
      simp [hmgr2, hasAccess, subscribeAgent, grantAccess,
        alGet_alSet_self]
    simp [getContext, hc2, hmm2, hexp, hacc]
  · intro hpriv hpm hna
    refine hdeny mgr hc hm ?_
    simp [hasAccess, hpm, hm, hpriv, hna]
  · intro hpriv hpm hexp
    have hacc : hasAccess mgr c md.owner = true := by
      simp [hasAccess, hpm, hm, hpriv]
    simp [getContext, hc, hm, hexp, hacc]

/-- C4, witnessed on the TEAM context owned by Designer, requested by
Developer. -/
theorem get_context_access_spec_witness :
    accessControlSpec c4Mgr "board" c4Ctx c4Md "Developer" 7 :=
  get_context_access_spec c4Mgr "board" c4Ctx c4Md "Developer" 7
    (by decide) (by decide)

/-! ## C10 -/

/-- C10: an explicit permission entry of False wins over every access
level and over ownership — `has_access` is false for that agent — and
after `revoke_access` of the owner on their own context, `get_context`
returns absent even for the owner. -/
theorem explicit_deny_overrides (mgr : ContextManager) (cid a : String)
    (now : Nat) (c : CtxObj)
    (hc : alGet mgr.contexts cid = some c) :
    (∀ pm, alGet mgr.perms c.permsRef = some pm →
      alGet pm a = some false → hasAccess mgr c a = false) ∧
    (getContext (revokeAccess mgr c a) cid a now).1 = none := by
  constructor
  · intro pm hpm hfalse
    simp [hasAccess, hpm, hfalse]
  · set mgr2 := revokeAccess mgr c a with hmgr2
    have hc2 : alGet mgr2.contexts cid = some c := by
      simp [hmgr2, revokeAccess, hc]
    have hacc : hasAccess mgr2 c a = false := by
      simp [hmgr2, hasAccess, revokeAccess, alGet_alSet_self]
    cases hexp : (match alGet mgr2.metas c.metaRef with
        | some md => isExpiredMeta md now
        | none => false) <;>
      simp [getContext, hc2, hacc, hexp]

/-- C10, witnessed on the PRIVATE context whose owner revokes their
own access. -/
theorem explicit_deny_overrides_witness :
    (∀ pm, alGet c10Mgr.perms c10Ctx.permsRef = some pm →
      alGet pm "Owner" = some false → hasAccess c10Mgr c10Ctx "Owner" = false) ∧
    (getContext (revokeAccess c10Mgr c10Ctx "Owner") "secret" "Owner" 3).1 =
      none :=
  explicit_deny_overrides c10Mgr "secret" "Owner" 3 c10Ctx (by decide)

end Collab
